import Mathlib

/-!
Shallow embedding of the `c2d::Text` entity of libcross2d
(`src/source/skeleton/sfml/Text.cpp`): the mutator contract, the lazy
geometry rebuild (`ensureGeometryUpdate`), the geometry builders
(`addGlyphQuad`, `addLine`) and the position query (`findCharacterPos`).

Modelling conventions:
* C++ `float` values are modelled as `ℚ` (the claims under scrutiny do not
  depend on floating-point rounding); `std::floor` maps to `Rat.floor`.
* `uint8_t` colour components, `unsigned int` sizes, style/overflow words and
  Unicode scalar values are `Nat`; `int` is `Int`.
* The font (`c2d::Font`, outside `src/`) is a record of the query functions
  the text entity consumes, per the spec's Glyph Provider interface; an `id`
  field models C++ object identity (the pointer compared by `setFont`).
* The vertex buffers are `List Vertex` built in emission order.  Each
  `append` of a six-vertex quad is recorded as one `Emit` carrying a ghost
  provenance tag (which source statement appended it); the actual vertex
  list is recovered by `emitVerts`, which implements `addGlyphQuad`/`addLine`
  exactly.  The tags add no data that influences the vertices.
-/

set_option linter.unusedVariables false

-- Batteries marks the arithmetic of `Rat` `@[irreducible]`, which blocks
-- `decide` from evaluating concrete layouts; restoring the definitional
-- transparency (a hint to the elaborator only — kernel checking is
-- unaffected) lets the witnesses below evaluate by `decide`.
set_option allowUnsafeReducibility true
attribute [local semireducible] Rat.add Rat.mul Rat.sub Rat.neg Rat.inv Rat.div
set_option maxRecDepth 16000

namespace Cross2dText

/-- RGBA colour with `uint8_t` components (`c2d::Color`). -/
structure Color where
  r : Nat
  g : Nat
  b : Nat
  a : Nat
deriving DecidableEq

/-- Axis-aligned float rectangle (`c2d::FloatRect`). -/
structure FloatRect where
  left : ℚ
  top : ℚ
  width : ℚ
  height : ℚ
deriving DecidableEq

/-- Integer rectangle (`c2d::IntRect`), the glyph's texture atlas location. -/
structure IntRect where
  left : Int
  top : Int
  width : Int
  height : Int
deriving DecidableEq

/-- 2D float vector (`c2d::Vector2f`). -/
structure Vector2f where
  x : ℚ
  y : ℚ
deriving DecidableEq

/-- 2D integer vector (`c2d::Vector2i`). -/
structure Vector2i where
  x : Int
  y : Int
deriving DecidableEq

/-- One vertex: position, colour, texture coordinates (`c2d::Vertex`). -/
structure Vertex where
  position : Vector2f
  color : Color
  texCoords : Vector2f
deriving DecidableEq

/-- Glyph metrics as supplied by the glyph provider (`c2d::Glyph`). -/
structure Glyph where
  bounds : FloatRect
  advance : ℚ
  textureRect : IntRect
deriving DecidableEq

/-- The glyph-provider (font) interface consumed by `Text`
(`c2d::Font`, defined outside `src/`): per-character glyph metrics,
kerning, line spacing, underline metrics, a per-font drawing offset and the
bitmap-font capability flag.  `id` models the C++ object identity (the
pointer value) that `Text::setFont` compares. -/
structure Font where
  id : Nat
  getGlyph : Nat → Nat → Bool → ℚ → Glyph
  getKerning : Nat → Nat → Nat → Bool → ℚ
  getLineSpacing : Nat → ℚ
  getUnderlinePosition : Nat → ℚ
  getUnderlineThickness : Nat → ℚ
  getOffset : Vector2f
  isBmFont : Bool

/-- Style bit for bold text.  Modelled from the spec: the style enum
{Regular, Bold, Italic, Underlined, StrikeThrough} of independently
combinable bits (the header defining the numeric values is not under
`src/`; the SFML convention Bold=1, Italic=2, Underlined=4,
StrikeThrough=8 is used — the claims depend only on the bits being
distinct). -/
def styleBold : Nat := 1

/-- Style bit for italic text (see `styleBold`). -/
def styleItalic : Nat := 2

/-- Style bit for underlined text (see `styleBold`). -/
def styleUnderlined : Nat := 4

/-- Style bit for struck-through text (see `styleBold`). -/
def styleStrikeThrough : Nat := 8

/-- The default reference character size `C2D_DEFAULT_CHAR_SIZE`.
Modelled from the spec: "a fixed default reference size" used as the
denominator of the font-offset scale; the header defining the constant is
not under `src/`.  No claim depends on its value. -/
def C2D_DEFAULT_CHAR_SIZE : ℚ := 20

/-- Stands for `std::numeric_limits<float>::max()`, the sentinel the
layout uses for "unconstrained" available width/height.  Only its being
larger than every quantity of an actual layout matters. -/
def FLT_MAX : ℚ := 2 ^ 128

/-- The mutable state of a `c2d::Text` entity (the `m_*` members of the
class that the layout path reads and writes). -/
structure TextState where
  m_string : String
  m_font : Option Font
  m_characterSize : Nat
  m_style : Nat
  m_overflow : Nat
  m_fillColor : Color
  m_outlineColor : Color
  m_outlineThickness : ℚ
  m_vertices : List Vertex
  m_outlineVertices : List Vertex
  m_bounds : FloatRect
  m_size : Vector2f
  m_max_size : Vector2f
  m_line_spacing : Int
  m_geometryNeedUpdate : Bool
  m_textureSize : Vector2i

/-- Pointer comparison of font references, as performed by
`Text::setFont`'s `m_font != font` (`Font.id` models the pointer). -/
def fontPtrEq : Option Font → Option Font → Bool
  | none, none => true
  | some a, some b => a.id == b.id
  | _, _ => false

/-- `Text::setString`: update the string and set the dirty flag only when
the new string differs. -/
def setString (s : TextState) (string : String) : TextState :=
  if s.m_string ≠ string then
    { s with m_string := string, m_geometryNeedUpdate := true }
  else s

/-- `Text::setFont`: update the font pointer and set the dirty flag only
when the pointer differs. -/
def setFont (s : TextState) (font : Option Font) : TextState :=
  if fontPtrEq s.m_font font then s
  else { s with m_font := font, m_geometryNeedUpdate := true }

/-- `Text::setCharacterSize`: update and set the dirty flag only on change. -/
def setCharacterSize (s : TextState) (size : Nat) : TextState :=
  if s.m_characterSize ≠ size then
    { s with m_characterSize := size, m_geometryNeedUpdate := true }
  else s

/-- `Text::setStyle`: update and set the dirty flag only on change. -/
def setStyle (s : TextState) (style : Nat) : TextState :=
  if s.m_style ≠ style then
    { s with m_style := style, m_geometryNeedUpdate := true }
  else s

/-- `Text::setOverflow`: update and set the dirty flag only on change. -/
def setOverflow (s : TextState) (overflow : Nat) : TextState :=
  if s.m_overflow ≠ overflow then
    { s with m_overflow := overflow, m_geometryNeedUpdate := true }
  else s

/-- `Text::setFillColor`: on a colour change, store the colour; when the
geometry is up to date (not dirty), additionally rewrite the colour of
every existing fill vertex in place (the `for` loop over
`m_vertices`). -/
def setFillColor (s : TextState) (color : Color) : TextState :=
  if color ≠ s.m_fillColor then
    let s1 : TextState := { s with m_fillColor := color }
    if ¬s1.m_geometryNeedUpdate then
      { s1 with m_vertices := s1.m_vertices.map fun v => { v with color := color } }
    else s1
  else s

/-- `Text::setOutlineColor`: as `setFillColor` for the outline buffer, but
guarded by `!m_font->isBmFont()` (bitmap fonts do not support outlining).
The source dereferences `m_font` unconditionally; a null font there is
undefined behaviour in C++ and unreachable in practice (the constructors
fall back to the renderer's default font), so the `none` case is modelled
as a no-op and every theorem that exercises this path assumes a font is
present. -/
def setOutlineColor (s : TextState) (color : Color) : TextState :=
  match s.m_font with
  | none => s
  | some f =>
    if ¬f.isBmFont ∧ color ≠ s.m_outlineColor then
      let s1 : TextState := { s with m_outlineColor := color }
      if ¬s1.m_geometryNeedUpdate then
        { s1 with m_outlineVertices := s1.m_outlineVertices.map fun v => { v with color := color } }
      else s1
    else s

/-- `Text::setOutlineThickness`: update and set the dirty flag only when
the font supports outlining and the value changes (null font as in
`setOutlineColor`). -/
def setOutlineThickness (s : TextState) (thickness : ℚ) : TextState :=
  match s.m_font with
  | none => s
  | some f =>
    if ¬f.isBmFont ∧ thickness ≠ s.m_outlineThickness then
      { s with m_outlineThickness := thickness, m_geometryNeedUpdate := true }
    else s

/-- `Text::setSizeMax(float,float)`: store the max-size box and set the
dirty flag, without comparing against the current value. -/
def setSizeMax (s : TextState) (size : Vector2f) : TextState :=
  { s with m_max_size := size, m_geometryNeedUpdate := true }

/-- `Text::setLineSpacingModifier`: store the modifier.  The source does
not touch the dirty flag here. -/
def setLineSpacingModifier (s : TextState) (size : Int) : TextState :=
  { s with m_line_spacing := size }

/-- `Text::setAlpha`: when the alpha differs from the fill colour's, fold
it into both the fill and the outline colour via the two colour setters.
The `recursive` branch only forwards to the `C2DObject` base to touch the
entity's children, which are outside this state; it has no effect on the
`Text` members themselves. -/
def setAlpha (s : TextState) (alpha : Nat) (recursive : Bool) : TextState :=
  if alpha ≠ s.m_fillColor.a then
    let c1 : Color := { s.m_fillColor with a := alpha }
    let s1 := setFillColor s c1
    let c2 : Color := { s1.m_outlineColor with a := alpha }
    setOutlineColor s1 c2
  else s

/-! ### Geometry builders (the anonymous-namespace helpers of `Text.cpp`) -/

/-- `addGlyphQuad`: the six vertices (two triangles) appended for one glyph
at pen position `position`, with the one-unit padding and the italic shear
`x - italic * y` on the left/right edges, texture coordinates normalised by
the atlas size. -/
def addGlyphQuad (texSize : Vector2i) (position : Vector2f) (color : Color)
    (glyph : Glyph) (italic : ℚ) : List Vertex :=
  let padding : ℚ := 1
  let left := glyph.bounds.left - padding
  let top := glyph.bounds.top - padding
  let right := glyph.bounds.left + glyph.bounds.width + padding
  let bottom := glyph.bounds.top + glyph.bounds.height + padding
  let u1 := ((glyph.textureRect.left : ℚ) - padding) / (texSize.x : ℚ)
  let v1 := ((glyph.textureRect.top : ℚ) - padding) / (texSize.y : ℚ)
  let u2 := (((glyph.textureRect.left + glyph.textureRect.width) : ℚ) + padding) / (texSize.x : ℚ)
  let v2 := (((glyph.textureRect.top + glyph.textureRect.height) : ℚ) + padding) / (texSize.y : ℚ)
  [ ⟨⟨position.x + left - italic * top, position.y + top⟩, color, ⟨u1, v1⟩⟩,
    ⟨⟨position.x + right - italic * top, position.y + top⟩, color, ⟨u2, v1⟩⟩,
    ⟨⟨position.x + left - italic * bottom, position.y + bottom⟩, color, ⟨u1, v2⟩⟩,
    ⟨⟨position.x + left - italic * bottom, position.y + bottom⟩, color, ⟨u1, v2⟩⟩,
    ⟨⟨position.x + right - italic * top, position.y + top⟩, color, ⟨u2, v1⟩⟩,
    ⟨⟨position.x + right - italic * bottom, position.y + bottom⟩, color, ⟨u2, v2⟩⟩ ]

/-- `addLine`: the six vertices of an underline/strikethrough bar of the
given length at vertical offset `offset` below `lineTop`, with the
top/bottom edges pixel-snapped (`std::floor(v + 0.5)`) and optionally
inflated by an outline thickness. -/
def addLine (texSize : Vector2i) (lineLength lineTop : ℚ) (color : Color)
    (offset thickness outlineThickness : ℚ) : List Vertex :=
  let top : ℚ := Rat.floor (lineTop + offset - thickness / 2 + 1/2)
  let bottom : ℚ := top + Rat.floor (thickness + 1/2)
  let tc : Vector2f := ⟨1 / (texSize.x : ℚ), 1 / (texSize.y : ℚ)⟩
  [ ⟨⟨-outlineThickness, top - outlineThickness⟩, color, tc⟩,
    ⟨⟨lineLength + outlineThickness, top - outlineThickness⟩, color, tc⟩,
    ⟨⟨-outlineThickness, bottom + outlineThickness⟩, color, tc⟩,
    ⟨⟨-outlineThickness, bottom + outlineThickness⟩, color, tc⟩,
    ⟨⟨lineLength + outlineThickness, top - outlineThickness⟩, color, tc⟩,
    ⟨⟨lineLength + outlineThickness, bottom + outlineThickness⟩, color, tc⟩ ]

/-! ### Emission trace

Each six-vertex `append` performed by `ensureGeometryUpdate` is recorded as
one `Emit`; `emitVerts` maps an emission to exactly the vertices the source
appends.  The provenance tags (`GlyphSrc`, `LineSrc`) record which source
statement performed the append and carry no data of their own. -/

/-- Provenance of a glyph quad: a character of the string processed by the
main loop, or one of the three ellipsis dots of the truncation
finalisation. -/
inductive GlyphSrc
  | chr (c : Nat)
  | dot
deriving DecidableEq

/-- Provenance of a decoration bar: the underline or the strikethrough
block. -/
inductive LineSrc
  | underline
  | strike
deriving DecidableEq

/-- One six-vertex append to a vertex buffer: a glyph quad
(`addGlyphQuad`) or a decoration bar (`addLine`). -/
inductive Emit
  | glyphQ (src : GlyphSrc) (position : Vector2f) (color : Color) (glyph : Glyph) (italic : ℚ)
  | lineQ (src : LineSrc) (lineLength lineTop : ℚ) (color : Color)
      (offset thickness outlineThickness : ℚ)
deriving DecidableEq

/-- The vertices of one emission (ignores the provenance tag). -/
def emitVerts (texSize : Vector2i) : Emit → List Vertex
  | .glyphQ _ position color glyph italic => addGlyphQuad texSize position color glyph italic
  | .lineQ _ lineLength lineTop color offset thickness outlineThickness =>
      addLine texSize lineLength lineTop color offset thickness outlineThickness

/-! ### The layout engine (`Text::ensureGeometryUpdate`) -/

/-- The per-run constants `ensureGeometryUpdate` computes before its
character loop (source lines 478–520). -/
structure LayoutCtx where
  font : Font
  size : Nat
  bold : Bool
  italic : ℚ
  underlined : Bool
  strikeThrough : Bool
  underlineOffset : ℚ
  underlineThickness : ℚ
  outlineThickness : ℚ
  fillColor : Color
  outlineColor : Color
  hspace : ℚ
  vspace : ℚ
  offsetX : ℚ
  singleLine : Bool
  availableWidth : ℚ
  maxSizeY : ℚ
  ellipsisWidth : ℚ

/-- The loop-local state of the layout: pen position, previous character
(for kerning), running bounding box, and the two emission traces. -/
structure Pen where
  x : ℚ
  y : ℚ
  prevChar : Nat
  minX : ℚ
  minY : ℚ
  maxX : ℚ
  maxY : ℚ
  fill : List Emit
  outline : List Emit
deriving DecidableEq

/-- How the character loop ended: all characters processed (`done`), the
single-line hard `break` with no room for an ellipsis (`brk`), or the
`goto add_ellipsis` with `truncated = true` (`ell`). -/
inductive ExitKind
  | done
  | brk
  | ell
deriving DecidableEq

/-- Outcome of one loop iteration. -/
inductive StepOut
  | cont (p : Pen)
  | brk (p : Pen)
  | ell (p : Pen)
deriving DecidableEq

/-- The pen carried by a step outcome. -/
def StepOut.pen : StepOut → Pen
  | .cont p => p
  | .brk p => p
  | .ell p => p

/-- The `availableWidth`/`availableHeight` computation (source lines
511–513 and the two inline copies at 558–560 and 598–600): start from
`FLT_MAX`, take the max-size dimension when positive, then clamp by the
`m_bounds` dimension when that is positive and smaller. -/
def availCalc (maxDim boundsDim : ℚ) : ℚ :=
  let a := FLT_MAX
  let a := if 0 < maxDim then maxDim else a
  if 0 < boundsDim ∧ boundsDim < a then boundsDim else a

/-- Glyph emission (source lines 609–641): when the outline thickness is
non-zero, append the outlined glyph variant to the outline trace and
extend the bounds by its box inflated by the thickness and sheared by the
italic factor; then append the plain glyph to the fill trace, extend the
bounds by its plain box, and advance the pen to `newX`. -/
def emitGlyph (ctx : LayoutCtx) (p : Pen) (c : Nat) (glyph : Glyph) (newX : ℚ) : Pen :=
  let p1 :=
    if ctx.outlineThickness ≠ 0 then
      let og := ctx.font.getGlyph c ctx.size ctx.bold ctx.outlineThickness
      let left := og.bounds.left - ctx.outlineThickness
      let top := og.bounds.top - ctx.outlineThickness
      let right := og.bounds.left + og.bounds.width + ctx.outlineThickness
      let bottom := og.bounds.top + og.bounds.height + ctx.outlineThickness
      { p with
        outline := p.outline ++ [Emit.glyphQ (GlyphSrc.chr c) ⟨p.x, p.y⟩ ctx.outlineColor og ctx.italic],
        minX := min p.minX (p.x + left - ctx.italic * bottom),
        maxX := max p.maxX (p.x + right - ctx.italic * top),
        minY := min p.minY (p.y + top),
        maxY := max p.maxY (p.y + bottom) }
    else p
  let left := glyph.bounds.left
  let top := glyph.bounds.top
  let right := glyph.bounds.left + glyph.bounds.width
  let bottom := glyph.bounds.top + glyph.bounds.height
  { p1 with
    fill := p1.fill ++ [Emit.glyphQ (GlyphSrc.chr c) ⟨p1.x, p1.y⟩ ctx.fillColor glyph ctx.italic],
    minX := min p1.minX (p1.x + left - ctx.italic * bottom),
    maxX := max p1.maxX (p1.x + right - ctx.italic * top),
    minY := min p1.minY (p1.y + top),
    maxY := max p1.maxY (p1.y + bottom),
    x := newX }

/-- One iteration of the character loop (source lines 522–642).  The
inline `availableHeight` computations read `m_bounds`, which was reset to
an empty rectangle at entry and is not written during the loop, so its
dimensions read as `0` there. -/
def stepChar (ctx : LayoutCtx) (p : Pen) (c : Nat) : StepOut :=
  let p := { p with x := p.x + ctx.font.getKerning p.prevChar c ctx.size ctx.bold, prevChar := c }
  if c = 32 then
    let newX := p.x + ctx.hspace
    StepOut.cont { p with x := if ¬ctx.singleLine ∨ newX ≤ ctx.availableWidth then newX else p.x }
  else if c = 9 then
    let newX := p.x + ctx.hspace * 4
    StepOut.cont { p with x := if ¬ctx.singleLine ∨ newX ≤ ctx.availableWidth then newX else p.x }
  else if c = 10 then
    if ctx.singleLine then
      let newX := p.x + ctx.hspace
      StepOut.cont { p with x := if newX ≤ ctx.availableWidth then newX else p.x }
    else
      let p := { p with y := p.y + ctx.vspace, x := ctx.offsetX }
      let availableHeight := availCalc ctx.maxSizeY 0
      if availableHeight < p.y then StepOut.ell p else StepOut.cont p
  else
    let glyph := ctx.font.getGlyph c ctx.size ctx.bold 0
    let newX := p.x + glyph.advance
    if (ctx.singleLine ∧ ctx.availableWidth < newX + ctx.ellipsisWidth) ∨
        (¬ctx.singleLine ∧ ctx.availableWidth < newX) then
      if ctx.singleLine then
        if p.x + ctx.ellipsisWidth ≤ ctx.availableWidth then StepOut.ell p
        else StepOut.brk p
      else
        let p := { p with y := p.y + ctx.vspace, x := ctx.offsetX }
        let newX := p.x + glyph.advance
        let availableHeight := availCalc ctx.maxSizeY 0
        if availableHeight < p.y then StepOut.ell p
        else StepOut.cont (emitGlyph ctx p c glyph newX)
    else
      StepOut.cont (emitGlyph ctx p c glyph newX)

/-- The character loop: runs `stepChar` over the decoded string; `break`
and `goto add_ellipsis` abandon the remaining characters. -/
def runChars (ctx : LayoutCtx) : List Nat → Pen → Pen × ExitKind
  | [], p => (p, ExitKind.done)
  | c :: cs, p =>
    match stepChar ctx p c with
    | .cont p1 => runChars ctx cs p1
    | .brk p1 => (p1, ExitKind.brk)
    | .ell p1 => (p1, ExitKind.ell)

/-- One ellipsis dot (one iteration of the `for (int i = 0; i < 3; ++i)`
loop at source lines 648–672): append the outlined dot to the outline
trace when the outline thickness is non-zero (the source updates no bounds
for it), append the plain dot to the fill trace, extend the bounds by the
plain dot's box, and advance the pen by the dot's advance. -/
def emitDot (ctx : LayoutCtx) (p : Pen) : Pen :=
  let dotGlyph := ctx.font.getGlyph 46 ctx.size ctx.bold 0
  let p1 :=
    if ctx.outlineThickness ≠ 0 then
      let od := ctx.font.getGlyph 46 ctx.size ctx.bold ctx.outlineThickness
      { p with outline := p.outline ++ [Emit.glyphQ GlyphSrc.dot ⟨p.x, p.y⟩ ctx.outlineColor od ctx.italic] }
    else p
  let left := dotGlyph.bounds.left
  let top := dotGlyph.bounds.top
  let right := dotGlyph.bounds.left + dotGlyph.bounds.width
  let bottom := dotGlyph.bounds.top + dotGlyph.bounds.height
  { p1 with
    fill := p1.fill ++ [Emit.glyphQ GlyphSrc.dot ⟨p1.x, p1.y⟩ ctx.fillColor dotGlyph ctx.italic],
    minX := min p1.minX (p1.x + left - ctx.italic * bottom),
    maxX := max p1.maxX (p1.x + right - ctx.italic * top),
    minY := min p1.minY (p1.y + top),
    maxY := max p1.maxY (p1.y + bottom),
    x := p1.x + dotGlyph.advance }

/-- The `add_ellipsis` finalisation (source lines 644–673): when the loop
was truncated in single-line mode and three dots still fit before the
available width, emit the three dots (three identical loop iterations). -/
def ellipsisPhase (ctx : LayoutCtx) (p : Pen) (truncated : Bool) : Pen :=
  if truncated ∧ ctx.singleLine ∧ p.x + ctx.ellipsisWidth ≤ ctx.availableWidth then
    emitDot ctx (emitDot ctx (emitDot ctx p))
  else p

/-- The decoration finalisation (source lines 676–694): an underline bar
when underlined and the final pen x is positive, then a strikethrough bar
when struck through and the final pen x is positive; each with an outline
variant when the outline thickness is non-zero. -/
def decorationPhase (ctx : LayoutCtx) (p : Pen) : Pen :=
  let p1 :=
    if ctx.underlined ∧ 0 < p.x then
      let p2 := { p with fill := p.fill ++
        [Emit.lineQ LineSrc.underline p.x p.y ctx.fillColor ctx.underlineOffset ctx.underlineThickness 0] }
      if ctx.outlineThickness ≠ 0 then
        { p2 with outline := p2.outline ++
          [Emit.lineQ LineSrc.underline p2.x p2.y ctx.outlineColor ctx.underlineOffset
            ctx.underlineThickness ctx.outlineThickness] }
      else p2
    else p
  if ctx.strikeThrough ∧ 0 < p1.x then
    let xBounds := (ctx.font.getGlyph 120 ctx.size ctx.bold 0).bounds
    let strikeThroughOffset := xBounds.top + xBounds.height / 2
    let p2 := { p1 with fill := p1.fill ++
      [Emit.lineQ LineSrc.strike p1.x p1.y ctx.fillColor strikeThroughOffset ctx.underlineThickness 0] }
    if ctx.outlineThickness ≠ 0 then
      { p2 with outline := p2.outline ++
        [Emit.lineQ LineSrc.strike p2.x p2.y ctx.outlineColor strikeThroughOffset
          ctx.underlineThickness ctx.outlineThickness] }
    else p2
  else p1

/-- The decoded character sequence of the stored string (UTF-8 to Unicode
scalar values; Lean's `String` is already a sequence of scalar values, so
decoding is the character list — malformed UTF-8 is out of scope per the
spec's open question). -/
def utf32 (s : String) : List Nat := s.data.map Char.toNat

/-- Whether a style bit is set (`m_style & flag`). -/
def styleHas (style flag : Nat) : Bool := style.land flag != 0

/-- The font-offset scale `characterSize / C2D_DEFAULT_CHAR_SIZE`. -/
def scaleOf (s : TextState) : ℚ := (s.m_characterSize : ℚ) / C2D_DEFAULT_CHAR_SIZE

/-- The layout's initial pen position (source lines 490–496):
`(offset.x * scale, characterSize + offset.y * scale)`. -/
def layoutStartPos (s : TextState) (f : Font) : ℚ × ℚ :=
  (f.getOffset.x * scaleOf s, (s.m_characterSize : ℚ) + f.getOffset.y * scaleOf s)

/-- The line advance `vspace = getLineSpacing(size) + m_line_spacing`. -/
def vspaceOf (s : TextState) (f : Font) : ℚ :=
  f.getLineSpacing s.m_characterSize + (s.m_line_spacing : ℚ)

/-- The per-run constants of a layout execution, read off the entity
state (source lines 478–520).  `availableWidth` is computed after
`m_bounds` was reset to an empty rectangle, so the clamp of `availCalc`
reads a zero width. -/
def mkCtx (s : TextState) (f : Font) : LayoutCtx :=
  { font := f
    size := s.m_characterSize
    bold := styleHas s.m_style styleBold
    italic := if styleHas s.m_style styleItalic then (208 : ℚ) / 1000 else 0
    underlined := styleHas s.m_style styleUnderlined
    strikeThrough := styleHas s.m_style styleStrikeThrough
    underlineOffset := f.getUnderlinePosition s.m_characterSize
    underlineThickness := f.getUnderlineThickness s.m_characterSize
    outlineThickness := s.m_outlineThickness
    fillColor := s.m_fillColor
    outlineColor := s.m_outlineColor
    hspace := (f.getGlyph 32 s.m_characterSize (styleHas s.m_style styleBold) 0).advance
    vspace := vspaceOf s f
    offsetX := f.getOffset.x * scaleOf s
    singleLine := s.m_overflow == 0
    availableWidth := availCalc s.m_max_size.x 0
    maxSizeY := s.m_max_size.y
    ellipsisWidth := (f.getGlyph 46 s.m_characterSize (styleHas s.m_style styleBold) 0).advance * 3 }

/-- The outcome of one layout execution: the two emission traces, the
published bounds and size, and ghost observations of the loop exit (the
exit kind and the pen at exit), the pen entering the decoration phase, and
the available width/height values the run used. -/
structure LayoutResult where
  fill : List Emit
  outline : List Emit
  bounds : FloatRect
  size : Vector2f
  exit : ExitKind
  exitPen : Pen
  afterEllipsisPen : Pen
  finalPen : Pen
  usedAvailableWidth : ℚ
  usedAvailableHeight : ℚ
deriving DecidableEq

/-- The initial `Pen` of a layout run (source lines 489–501): pen at the
layout start position, bounds seeded there, previous character `0`, empty
traces (the buffers were just cleared). -/
def startPen (s : TextState) (f : Font) : Pen :=
  { x := (layoutStartPos s f).1, y := (layoutStartPos s f).2, prevChar := 0
    minX := (layoutStartPos s f).1, minY := (layoutStartPos s f).2
    maxX := (layoutStartPos s f).1, maxY := (layoutStartPos s f).2
    fill := [], outline := [] }

/-- The character loop of one layout execution. -/
def layoutLoop (s : TextState) (f : Font) : Pen × ExitKind :=
  runChars (mkCtx s f) (utf32 s.m_string) (startPen s f)

/-- One full layout execution (`ensureGeometryUpdate` past its early
returns), for a state with font `f` and a non-empty string: character
loop, ellipsis finalisation, decoration, final bounds. -/
def layoutRun (s : TextState) (f : Font) : LayoutResult :=
  let ctx := mkCtx s f
  let r := layoutLoop s f
  let truncated : Bool := r.2 == ExitKind.ell
  let pEll := ellipsisPhase ctx r.1 truncated
  let pFin := decorationPhase ctx pEll
  { fill := pFin.fill
    outline := pFin.outline
    bounds := ⟨pFin.minX, pFin.minY, pFin.maxX - pFin.minX, pFin.maxY - pFin.minY⟩
    size := ⟨pFin.maxX - pFin.minX, pFin.maxY - pFin.minY⟩
    exit := r.2
    exitPen := r.1
    afterEllipsisPen := pEll
    finalPen := pFin
    usedAvailableWidth := ctx.availableWidth
    usedAvailableHeight := availCalc ctx.maxSizeY 0 }

/-- `Text::ensureGeometryUpdate`: no-op when not dirty; otherwise clear
the dirty flag first, return (leaving buffers and bounds as they are) when
the font is absent or the string empty, and otherwise rebuild both vertex
buffers, the bounds and the size from a full layout run. -/
def ensureGeometryUpdate (s : TextState) : TextState :=
  if s.m_geometryNeedUpdate then
    let s1 : TextState := { s with m_geometryNeedUpdate := false }
    match s.m_font with
    | none => s1
    | some f =>
      if s.m_string.isEmpty then s1
      else
        let r := layoutRun s f
        { s1 with
          m_vertices := r.fill.flatMap (emitVerts s.m_textureSize)
          m_outlineVertices := r.outline.flatMap (emitVerts s.m_textureSize)
          m_bounds := r.bounds
          m_size := r.size }
  else s

/-! ### The position query (`Text::findCharacterPos`) -/

/-- One iteration of `findCharacterPos`'s walk: apply kerning, then the
space/tab/newline advances (newline resets x to `0`), else the glyph
advance.  The accumulator is (position, previous character). -/
def fcpStep (f : Font) (size : Nat) (bold : Bool) (hspace vspace : ℚ)
    (acc : (ℚ × ℚ) × Nat) (c : Nat) : (ℚ × ℚ) × Nat :=
  let pos := acc.1
  let pos := (pos.1 + f.getKerning acc.2 c size bold, pos.2)
  if c = 32 then ((pos.1 + hspace, pos.2), c)
  else if c = 9 then ((pos.1 + hspace * 4, pos.2), c)
  else if c = 10 then ((0, pos.2 + vspace), c)
  else ((pos.1 + (f.getGlyph c size bold 0).advance, pos.2), c)

/-- The pen position `findCharacterPos` computes before its transform, for
the first `n` characters: a walk from `(0, 0)` with previous character
`0`. -/
def fcpPen (s : TextState) (f : Font) (n : Nat) : ℚ × ℚ :=
  let bold := styleHas s.m_style styleBold
  let hspace := (f.getGlyph 32 s.m_characterSize bold 0).advance
  let vspace := vspaceOf s f
  (((utf32 s.m_string).take n).foldl (fcpStep f s.m_characterSize bold hspace vspace) ((0, 0), 0)).1

/-- `Text::findCharacterPos`: `(0,0)` when the font is absent; otherwise
clamp the index to the decoded length, walk the first `index` characters
from the origin, and map the local position through the entity's current
transform `T` (the `Transformable` base, outside `src/`, passed here as an
abstract point map). -/
def findCharacterPos (s : TextState) (T : ℚ × ℚ → ℚ × ℚ) (index : Nat) : ℚ × ℚ :=
  match s.m_font with
  | none => (0, 0)
  | some f =>
    let len := (utf32 s.m_string).length
    let idx := if len < index then len else index
    T (fcpPen s f idx)

/-! ### Observations on emission traces -/

/-- Whether an emission is one of the ellipsis dots of the truncation
finalisation (ghost provenance, see `Emit`). -/
def Emit.isEllipsisDot : Emit → Bool
  | .glyphQ GlyphSrc.dot _ _ _ _ => true
  | _ => false

/-- Number of ellipsis-dot quads in a trace. -/
def ellipsisDotCount (l : List Emit) : Nat := l.countP Emit.isEllipsisDot

/-- Whether an emission is a decoration bar of the given provenance. -/
def Emit.isBar (src : LineSrc) : Emit → Bool
  | .lineQ s _ _ _ _ _ _ => s == src
  | _ => false

/-- Number of decoration bars of the given provenance in a trace. -/
def barCount (src : LineSrc) (l : List Emit) : Nat := l.countP (Emit.isBar src)

/-- Whether an emission is a glyph quad for a character of the string. -/
def Emit.isChrGlyph : Emit → Bool
  | .glyphQ (GlyphSrc.chr _) _ _ _ _ => true
  | _ => false

/-- Number of character glyph quads in a trace. -/
def chrGlyphCount (l : List Emit) : Nat := l.countP Emit.isChrGlyph

/-- Modelled from the spec: "Determine available width/height from
max-size box (0 = unconstrained) clamped additionally by any previously
computed bounds if smaller" — the available width this describes, reading
the bounds of the previous layout pass as stored in the entity state. -/
def specAvailableWidth (s : TextState) : ℚ := availCalc s.m_max_size.x s.m_bounds.width

/-! ### Concrete fixtures for witnesses and counterexamples -/

/-- A fixed-width test font: every glyph advances by 10 with an 8×8 box,
no kerning, line spacing 18, zero offset, outline-capable. -/
def testFont : Font :=
  { id := 1
    getGlyph := fun _ _ _ _ => { bounds := ⟨1, -8, 8, 8⟩, advance := 10, textureRect := ⟨0, 0, 8, 8⟩ }
    getKerning := fun _ _ _ _ => 0
    getLineSpacing := fun _ => 18
    getUnderlinePosition := fun _ => 2
    getUnderlineThickness := fun _ => 1
    getOffset := ⟨0, 0⟩
    isBmFont := false }

/-- A bitmap font (outlining unsupported), otherwise like `testFont`. -/
def bmFont : Font := { testFont with id := 2, isBmFont := true }

/-- A fixed-width font with advance 2, for the narrow-box scenarios. -/
def narrowFont : Font :=
  { testFont with
    id := 3
    getGlyph := fun _ _ _ _ => { bounds := ⟨0, -2, 2, 2⟩, advance := 2, textureRect := ⟨0, 0, 2, 2⟩ } }

/-- A pre-existing vertex, standing for stale geometry of an earlier
layout pass. -/
def staleVertex : Vertex := ⟨⟨3, 4⟩, ⟨9, 9, 9, 255⟩, ⟨0, 0⟩⟩

/-- A dirty single-line text state: string "abcd" (width 40), character
size 16, max-size box 45 wide, white fill over `testFont`. -/
def baseState : TextState :=
  { m_string := "abcd"
    m_font := some testFont
    m_characterSize := 16
    m_style := 0
    m_overflow := 0
    m_fillColor := ⟨255, 255, 255, 255⟩
    m_outlineColor := ⟨0, 0, 0, 255⟩
    m_outlineThickness := 0
    m_vertices := []
    m_outlineVertices := []
    m_bounds := ⟨0, 0, 0, 0⟩
    m_size := ⟨0, 0⟩
    m_max_size := ⟨45, 0⟩
    m_line_spacing := 0
    m_geometryNeedUpdate := true
    m_textureSize := ⟨256, 256⟩ }

/-- `baseState` with geometry up to date. -/
def cleanState : TextState := { baseState with m_geometryNeedUpdate := false }

/-- A dirty state whose string became empty after geometry was built: the
fill buffer and the bounds still hold the previous pass's data. -/
def cex2State : TextState :=
  { baseState with
    m_string := ""
    m_vertices := [staleVertex]
    m_bounds := ⟨0, 0, 7, 7⟩ }

/-- A one-character state for the position-query counterexample. -/
def c3State : TextState := { baseState with m_string := "A" }

/-- A non-dirty state over the bitmap font with stale outline vertices. -/
def bmState : TextState :=
  { baseState with
    m_font := some bmFont
    m_geometryNeedUpdate := false
    m_outlineVertices := [staleVertex] }

/-- A non-dirty state with one vertex in each buffer, for the recolor
witness. -/
def c7State : TextState :=
  { baseState with
    m_geometryNeedUpdate := false
    m_vertices := [staleVertex]
    m_outlineVertices := [staleVertex] }

/-- An underlined two-character state with no size cap. -/
def c8State : TextState :=
  { baseState with
    m_string := "ab"
    m_style := styleUnderlined
    m_max_size := ⟨0, 0⟩ }

/-- A state whose previous-pass bounds (width 5) are smaller than its
max-size box (width 10), over the advance-2 font: "aa" is 4 wide. -/
def c9State : TextState :=
  { baseState with
    m_font := some narrowFont
    m_string := "aa"
    m_max_size := ⟨10, 0⟩
    m_bounds := ⟨0, 0, 5, 5⟩ }

/-- A state whose fill and outline alphas differ. -/
def c10State : TextState :=
  { baseState with
    m_fillColor := ⟨255, 255, 255, 200⟩
    m_outlineColor := ⟨0, 0, 0, 50⟩ }

/-- An opaque red. -/
def redColor : Color := ⟨255, 0, 0, 255⟩

/-!
## Helper lemmas
-/

@[simp]
theorem isEllipsisDot_chr (c : Nat) (pos : Vector2f) (col : Color) (g : Glyph) (it : ℚ) :
    Emit.isEllipsisDot (Emit.glyphQ (GlyphSrc.chr c) pos col g it) = false := rfl

@[simp]
theorem isEllipsisDot_dot (pos : Vector2f) (col : Color) (g : Glyph) (it : ℚ) :
    Emit.isEllipsisDot (Emit.glyphQ GlyphSrc.dot pos col g it) = true := rfl

@[simp]
theorem isEllipsisDot_line (src : LineSrc) (a b : ℚ) (col : Color) (d e g : ℚ) :
    Emit.isEllipsisDot (Emit.lineQ src a b col d e g) = false := rfl

@[simp]
theorem isBar_glyph (src : LineSrc) (gs : GlyphSrc) (pos : Vector2f) (col : Color)
    (g : Glyph) (it : ℚ) : Emit.isBar src (Emit.glyphQ gs pos col g it) = false := rfl

@[simp]
theorem isBar_line (src src2 : LineSrc) (a b : ℚ) (col : Color) (d e g : ℚ) :
    Emit.isBar src (Emit.lineQ src2 a b col d e g) = (src2 == src) := rfl

@[simp]
theorem ellipsisDotCount_nil : ellipsisDotCount [] = 0 := rfl

@[simp]
theorem ellipsisDotCount_append (l m : List Emit) :
    ellipsisDotCount (l ++ m) = ellipsisDotCount l + ellipsisDotCount m := by
  simp [ellipsisDotCount, List.countP_append]

@[simp]
theorem barCount_nil (src : LineSrc) : barCount src [] = 0 := rfl

@[simp]
theorem barCount_append (src : LineSrc) (l m : List Emit) :
    barCount src (l ++ m) = barCount src l + barCount src m := by
  simp [barCount, List.countP_append]

@[simp]
theorem pen_cont (p : Pen) : (StepOut.cont p).pen = p := rfl

@[simp]
theorem pen_brk (p : Pen) : (StepOut.brk p).pen = p := rfl

@[simp]
theorem pen_ell (p : Pen) : (StepOut.ell p).pen = p := rfl

theorem emitGlyph_dot_fill (ctx : LayoutCtx) (p : Pen) (c : Nat) (g : Glyph) (nx : ℚ) :
    ellipsisDotCount (emitGlyph ctx p c g nx).fill = ellipsisDotCount p.fill := by
  unfold emitGlyph
  split <;> simp [ellipsisDotCount, List.countP_append, Emit.isEllipsisDot]

theorem emitGlyph_dot_outline (ctx : LayoutCtx) (p : Pen) (c : Nat) (g : Glyph) (nx : ℚ) :
    ellipsisDotCount (emitGlyph ctx p c g nx).outline = ellipsisDotCount p.outline := by
  unfold emitGlyph
  split <;> simp [ellipsisDotCount, List.countP_append, Emit.isEllipsisDot]

theorem emitGlyph_bar_fill (ctx : LayoutCtx) (p : Pen) (c : Nat) (g : Glyph) (nx : ℚ)
    (src : LineSrc) : barCount src (emitGlyph ctx p c g nx).fill = barCount src p.fill := by
  unfold emitGlyph
  split <;> simp [barCount, List.countP_append, Emit.isBar]

theorem emitGlyph_bar_outline (ctx : LayoutCtx) (p : Pen) (c : Nat) (g : Glyph) (nx : ℚ)
    (src : LineSrc) : barCount src (emitGlyph ctx p c g nx).outline = barCount src p.outline := by
  unfold emitGlyph
  split <;> simp [barCount, List.countP_append, Emit.isBar]

theorem stepChar_dot_fill (ctx : LayoutCtx) (p : Pen) (c : Nat) :
    ellipsisDotCount (stepChar ctx p c).pen.fill = ellipsisDotCount p.fill := by
  unfold stepChar
  split_ifs <;> simp [emitGlyph_dot_fill, apply_ite StepOut.pen, apply_ite Pen.fill, apply_ite ellipsisDotCount]

theorem stepChar_dot_outline (ctx : LayoutCtx) (p : Pen) (c : Nat) :
    ellipsisDotCount (stepChar ctx p c).pen.outline = ellipsisDotCount p.outline := by
  unfold stepChar
  split_ifs <;> simp [emitGlyph_dot_outline, apply_ite StepOut.pen, apply_ite Pen.outline, apply_ite ellipsisDotCount]

theorem stepChar_bar_fill (ctx : LayoutCtx) (p : Pen) (c : Nat) (src : LineSrc) :
    barCount src (stepChar ctx p c).pen.fill = barCount src p.fill := by
  unfold stepChar
  split_ifs <;> simp [emitGlyph_bar_fill, apply_ite StepOut.pen, apply_ite Pen.fill, apply_ite (barCount src)]

theorem stepChar_bar_outline (ctx : LayoutCtx) (p : Pen) (c : Nat) (src : LineSrc) :
    barCount src (stepChar ctx p c).pen.outline = barCount src p.outline := by
  unfold stepChar
  split_ifs <;> simp [emitGlyph_bar_outline, apply_ite StepOut.pen, apply_ite Pen.outline, apply_ite (barCount src)]

/-- The loop preserves any pen statistic that every step preserves. -/
theorem runChars_preserve (ctx : LayoutCtx) (F : Pen → Nat)
    (hF : ∀ p c, F (stepChar ctx p c).pen = F p) :
    ∀ (cs : List Nat) (p : Pen), F (runChars ctx cs p).1 = F p := by
  intro cs
  induction cs with
  | nil => intro p; rfl
  | cons c cs ih =>
    intro p
    rw [runChars]
    rcases hs : stepChar ctx p c with p1 | p1 | p1 <;> simp only []
    · have h1 := hF p c
      rw [hs] at h1
      simpa [ih p1] using h1
    · have h1 := hF p c
      rw [hs] at h1
      simpa using h1
    · have h1 := hF p c
      rw [hs] at h1
      simpa using h1

@[simp]
theorem ellipsisDotCount_cons (e : Emit) (l : List Emit) :
    ellipsisDotCount (e :: l) = ellipsisDotCount l + (if Emit.isEllipsisDot e then 1 else 0) := by
  simp [ellipsisDotCount, List.countP_cons]

@[simp]
theorem barCount_cons (src : LineSrc) (e : Emit) (l : List Emit) :
    barCount src (e :: l) = barCount src l + (if Emit.isBar src e then 1 else 0) := by
  simp [barCount, List.countP_cons]

@[simp]
theorem isBar_uu (a b : ℚ) (col : Color) (d e g : ℚ) :
    Emit.isBar LineSrc.underline (Emit.lineQ LineSrc.underline a b col d e g) = true := rfl

@[simp]
theorem isBar_us (a b : ℚ) (col : Color) (d e g : ℚ) :
    Emit.isBar LineSrc.underline (Emit.lineQ LineSrc.strike a b col d e g) = false := rfl

@[simp]
theorem isBar_su (a b : ℚ) (col : Color) (d e g : ℚ) :
    Emit.isBar LineSrc.strike (Emit.lineQ LineSrc.underline a b col d e g) = false := rfl

@[simp]
theorem isBar_ss (a b : ℚ) (col : Color) (d e g : ℚ) :
    Emit.isBar LineSrc.strike (Emit.lineQ LineSrc.strike a b col d e g) = true := rfl

theorem stepChar_exit_ell (ctx : LayoutCtx) (hSL : ctx.singleLine = true) (p : Pen) (c : Nat)
    (q : Pen) (h : stepChar ctx p c = StepOut.ell q) :
    q.x + ctx.ellipsisWidth ≤ ctx.availableWidth := by
  unfold stepChar at h
  dsimp only at h
  split_ifs at h <;> try exact StepOut.noConfusion h
  all_goals (injection h with h; subst h; simp_all)

theorem stepChar_exit_brk (ctx : LayoutCtx) (hSL : ctx.singleLine = true) (p : Pen) (c : Nat)
    (q : Pen) (h : stepChar ctx p c = StepOut.brk q) :
    ctx.availableWidth < q.x + ctx.ellipsisWidth := by
  unfold stepChar at h
  dsimp only at h
  split_ifs at h <;> try exact StepOut.noConfusion h
  all_goals (injection h with h; subst h; simp_all [not_le])

/-- Equation lemma for the loop on a non-empty list. -/
theorem runChars_cons (ctx : LayoutCtx) (c : Nat) (cs : List Nat) (p : Pen) :
    runChars ctx (c :: cs) p =
      match stepChar ctx p c with
      | .cont p1 => runChars ctx cs p1
      | .brk p1 => (p1, ExitKind.brk)
      | .ell p1 => (p1, ExitKind.ell) := rfl

/-- In single-line mode, when the loop exits through the
`goto add_ellipsis` branch, the exit pen plus the ellipsis width fits the
available width (the branch's own guard). -/
theorem runChars_exit_ell (ctx : LayoutCtx) (hSL : ctx.singleLine = true) :
    ∀ (cs : List Nat) (p q : Pen), runChars ctx cs p = (q, ExitKind.ell) →
      q.x + ctx.ellipsisWidth ≤ ctx.availableWidth := by
  intro cs
  induction cs with
  | nil =>
    intro p q h
    exact ExitKind.noConfusion (congrArg Prod.snd h)
  | cons c cs ih =>
    intro p q h
    rw [runChars_cons] at h
    rcases hs : stepChar ctx p c with p1 | p1 | p1 <;> rw [hs] at h
    · exact ih p1 q h
    · have h1 : (p1, ExitKind.brk) = (q, ExitKind.ell) := h
      exact ExitKind.noConfusion (congrArg Prod.snd h1)
    · have h1 : (p1, ExitKind.ell) = (q, ExitKind.ell) := h
      injection h1 with h2 h3
      exact h2 ▸ stepChar_exit_ell ctx hSL p c p1 hs

/-- In single-line mode, when the loop exits through the hard `break`,
the exit pen plus the ellipsis width exceeds the available width. -/
theorem runChars_exit_brk (ctx : LayoutCtx) (hSL : ctx.singleLine = true) :
    ∀ (cs : List Nat) (p q : Pen), runChars ctx cs p = (q, ExitKind.brk) →
      ctx.availableWidth < q.x + ctx.ellipsisWidth := by
  intro cs
  induction cs with
  | nil =>
    intro p q h
    exact ExitKind.noConfusion (congrArg Prod.snd h)
  | cons c cs ih =>
    intro p q h
    rw [runChars_cons] at h
    rcases hs : stepChar ctx p c with p1 | p1 | p1 <;> rw [hs] at h
    · exact ih p1 q h
    · have h1 : (p1, ExitKind.brk) = (q, ExitKind.brk) := h
      injection h1 with h2 h3
      exact h2 ▸ stepChar_exit_brk ctx hSL p c p1 hs
    · have h1 : (p1, ExitKind.ell) = (q, ExitKind.brk) := h
      exact ExitKind.noConfusion (congrArg Prod.snd h1)

theorem emitDot_dot_fill (ctx : LayoutCtx) (p : Pen) :
    ellipsisDotCount (emitDot ctx p).fill = ellipsisDotCount p.fill + 1 := by
  unfold emitDot
  split_ifs <;> simp

theorem emitDot_dot_outline (ctx : LayoutCtx) (p : Pen) :
    ellipsisDotCount (emitDot ctx p).outline =
      ellipsisDotCount p.outline + (if ctx.outlineThickness ≠ 0 then 1 else 0) := by
  unfold emitDot
  split_ifs with h <;> simp [h]

theorem emitDot_bar_fill (ctx : LayoutCtx) (p : Pen) (src : LineSrc) :
    barCount src (emitDot ctx p).fill = barCount src p.fill := by
  unfold emitDot
  split_ifs <;> simp

theorem emitDot_bar_outline (ctx : LayoutCtx) (p : Pen) (src : LineSrc) :
    barCount src (emitDot ctx p).outline = barCount src p.outline := by
  unfold emitDot
  split_ifs <;> simp

/-- The ellipsis finalisation with `truncated = true` in single-lineax
mode and room for the dots emits exactly the three dots. -/
theorem ellipsisPhase_true (ctx : LayoutCtx) (p : Pen) (hSL : ctx.singleLine = true)
    (hle : p.x + ctx.ellipsisWidth ≤ ctx.availableWidth) :
    ellipsisPhase ctx p true = emitDot ctx (emitDot ctx (emitDot ctx p)) := by
  unfold ellipsisPhase
  rw [if_pos]
  exact ⟨rfl, hSL, hle⟩

theorem ellipsisPhase_false (ctx : LayoutCtx) (p : Pen) : ellipsisPhase ctx p false = p := by
  unfold ellipsisPhase
  rw [if_neg]
  simp

theorem ellipsisPhase_bar_fill (ctx : LayoutCtx) (p : Pen) (tr : Bool) (src : LineSrc) :
    barCount src (ellipsisPhase ctx p tr).fill = barCount src p.fill := by
  unfold ellipsisPhase
  split <;> simp [emitDot_bar_fill]

theorem ellipsisPhase_bar_outline (ctx : LayoutCtx) (p : Pen) (tr : Bool) (src : LineSrc) :
    barCount src (ellipsisPhase ctx p tr).outline = barCount src p.outline := by
  unfold ellipsisPhase
  split <;> simp [emitDot_bar_outline]

theorem decorationPhase_dot_fill (ctx : LayoutCtx) (p : Pen) :
    ellipsisDotCount (decorationPhase ctx p).fill = ellipsisDotCount p.fill := by
  unfold decorationPhase
  dsimp only
  split_ifs <;> simp

theorem decorationPhase_dot_outline (ctx : LayoutCtx) (p : Pen) :
    ellipsisDotCount (decorationPhase ctx p).outline = ellipsisDotCount p.outline := by
  unfold decorationPhase
  dsimp only
  split_ifs <;> simp

theorem decorationPhase_underline_fill (ctx : LayoutCtx) (p : Pen) :
    barCount LineSrc.underline (decorationPhase ctx p).fill =
      barCount LineSrc.underline p.fill +
        (if ctx.underlined ∧ 0 < p.x then 1 else 0) := by
  unfold decorationPhase
  dsimp only
  split_ifs <;> simp_all

theorem decorationPhase_strike_fill (ctx : LayoutCtx) (p : Pen) :
    barCount LineSrc.strike (decorationPhase ctx p).fill =
      barCount LineSrc.strike p.fill +
        (if ctx.strikeThrough ∧ 0 < p.x then 1 else 0) := by
  unfold decorationPhase
  dsimp only
  split_ifs <;> simp_all

theorem decorationPhase_mem_underline (ctx : LayoutCtx) (p : Pen)
    (h : ctx.underlined ∧ 0 < p.x) :
    Emit.lineQ LineSrc.underline p.x p.y ctx.fillColor ctx.underlineOffset
      ctx.underlineThickness 0 ∈ (decorationPhase ctx p).fill := by
  unfold decorationPhase
  dsimp only
  split_ifs <;> simp_all [List.mem_append]

theorem ensure_flag (s : TextState) :
    (ensureGeometryUpdate s).m_geometryNeedUpdate = false := by
  unfold ensureGeometryUpdate
  by_cases h : s.m_geometryNeedUpdate = true
  · cases hf : s.m_font with
    | none => simp [h, hf]
    | some f => by_cases he : s.m_string.isEmpty <;> simp [h, hf, he]
  · simp only [Bool.not_eq_true] at h
    simp [h]

theorem ensure_not_dirty (s : TextState) (h : s.m_geometryNeedUpdate = false) :
    ensureGeometryUpdate s = s := by
  unfold ensureGeometryUpdate
  simp [h]

theorem ensure_run (s : TextState) (f : Font) (hd : s.m_geometryNeedUpdate = true)
    (hf : s.m_font = some f) (hs : s.m_string.isEmpty = false) :
    ensureGeometryUpdate s = { s with
      m_geometryNeedUpdate := false
      m_vertices := (layoutRun s f).fill.flatMap (emitVerts s.m_textureSize)
      m_outlineVertices := (layoutRun s f).outline.flatMap (emitVerts s.m_textureSize)
      m_bounds := (layoutRun s f).bounds
      m_size := (layoutRun s f).size } := by
  unfold ensureGeometryUpdate
  simp [hd, hf, hs]

theorem layoutRun_exit (s : TextState) (f : Font) :
    (layoutRun s f).exit = (layoutLoop s f).2 := rfl

theorem layoutRun_exitPen (s : TextState) (f : Font) :
    (layoutRun s f).exitPen = (layoutLoop s f).1 := rfl

theorem layoutRun_usedW (s : TextState) (f : Font) :
    (layoutRun s f).usedAvailableWidth = (mkCtx s f).availableWidth := rfl

theorem layoutRun_usedH (s : TextState) (f : Font) :
    (layoutRun s f).usedAvailableHeight = availCalc s.m_max_size.y 0 := rfl

theorem layoutRun_fill (s : TextState) (f : Font) :
    (layoutRun s f).fill =
      (decorationPhase (mkCtx s f)
        (ellipsisPhase (mkCtx s f) (layoutLoop s f).1 ((layoutLoop s f).2 == ExitKind.ell))).fill := rfl

theorem layoutRun_outline (s : TextState) (f : Font) :
    (layoutRun s f).outline =
      (decorationPhase (mkCtx s f)
        (ellipsisPhase (mkCtx s f) (layoutLoop s f).1 ((layoutLoop s f).2 == ExitKind.ell))).outline := rfl

theorem layoutRun_afterEllipsisPen (s : TextState) (f : Font) :
    (layoutRun s f).afterEllipsisPen =
      ellipsisPhase (mkCtx s f) (layoutLoop s f).1 ((layoutLoop s f).2 == ExitKind.ell) := rfl

/-!
## Claims
-/

/-- Claim C4 (confirmed): for every state, calling `ensureGeometryUpdate`
twice with no intervening mutator produces the same state as calling it
once — in particular identical fill and outline vertex buffers and
identical published bounds — because the first call cleared the dirty
flag and the second returns immediately. -/
theorem claim_C4 (s : TextState) :
    ensureGeometryUpdate (ensureGeometryUpdate s) = ensureGeometryUpdate s :=
  ensure_not_dirty (ensureGeometryUpdate s) (ensure_flag s)

/-- Claim C2, counterexample: a dirty state whose string became empty
after geometry was built.  `ensureGeometryUpdate` clears the dirty flag
but returns before clearing the buffers, so the stale fill buffer and the
stale bounds survive — contradicting the claim that both vertex buffers
and the published bounds are left empty. -/
theorem claim_C2_counterexample :
    cex2State.m_geometryNeedUpdate = true ∧
    cex2State.m_string = "" ∧
    (ensureGeometryUpdate cex2State).m_geometryNeedUpdate = false ∧
    (ensureGeometryUpdate cex2State).m_vertices = [staleVertex] ∧
    (ensureGeometryUpdate cex2State).m_bounds = ⟨0, 0, 7, 7⟩ :=
  ⟨rfl, rfl, by decide, by decide, by decide⟩

/-- Claim C2 as amended: for every dirty state with an absent font or an
empty string, `ensureGeometryUpdate` clears the dirty flag and returns
with every other member — both vertex buffers and the published bounds
included — unchanged from its previous (possibly stale) value. -/
theorem claim_C2_amended (s : TextState) (hd : s.m_geometryNeedUpdate = true)
    (h : s.m_font = none ∨ s.m_string.isEmpty = true) :
    ensureGeometryUpdate s = { s with m_geometryNeedUpdate := false } := by
  unfold ensureGeometryUpdate
  rcases h with h | h
  · simp [hd, h]
  · cases hf : s.m_font with
    | none => simp [hd, hf]
    | some f => simp [hd, hf, h]

/-- Witness for the amended claim C2 at the concrete stale state. -/
theorem claim_C2_witness :
    cex2State.m_geometryNeedUpdate = true ∧
    (cex2State.m_font = none ∨ cex2State.m_string.isEmpty = true) ∧
    ensureGeometryUpdate cex2State = { cex2State with m_geometryNeedUpdate := false } :=
  ⟨rfl, Or.inr rfl, claim_C2_amended cex2State rfl (Or.inr rfl)⟩

/-- Claim C3, counterexample: with the identity transform, font offset
`(0,0)` and character size 16, `findCharacterPos 0` returns `(0, 0)`
while the layout's starting pen position is `(0, 16)` — the position
query starts its walk at the origin, not at the layout start, so the
claimed equality fails. -/
theorem claim_C3_counterexample :
    findCharacterPos c3State (fun q => q) 0 = (0, 0) ∧
    layoutStartPos c3State testFont = (0, 16) ∧
    findCharacterPos c3State (fun q => q) 0 ≠ layoutStartPos c3State testFont :=
  ⟨by decide, by decide, by decide⟩

/-- Claim C3 as amended: for every state with a font, `findCharacterPos 0`
equals the transform applied to the origin `(0, 0)` (not to the layout's
start position), and `findCharacterPos` at the string length — or any
index beyond it, by clamping — equals the transform applied to the pen
produced by the query's own walk over the whole string (kerning, space and
tab advances, newline resetting x to `0`). -/
theorem claim_C3_amended (s : TextState) (f : Font) (T : ℚ × ℚ → ℚ × ℚ)
    (hf : s.m_font = some f) :
    findCharacterPos s T 0 = T (0, 0) ∧
    findCharacterPos s T (utf32 s.m_string).length =
      T (fcpPen s f (utf32 s.m_string).length) ∧
    (∀ i, (utf32 s.m_string).length ≤ i →
      findCharacterPos s T i = findCharacterPos s T (utf32 s.m_string).length) := by
  unfold findCharacterPos
  rw [hf]
  dsimp only
  refine ⟨?_, ?_, ?_⟩
  · rw [if_neg (Nat.not_lt_zero _)]
    unfold fcpPen
    simp
  · rw [if_neg (lt_irrefl _)]
  · intro i hi
    rcases Nat.lt_or_ge (utf32 s.m_string).length i with h | h
    · rw [if_pos h, if_neg (lt_irrefl _)]
    · have he : i = (utf32 s.m_string).length := Nat.le_antisymm h hi
      rw [he]

/-- Witness for the amended claim C3 at the concrete one-character state
with the identity transform. -/
theorem claim_C3_witness :
    c3State.m_font = some testFont ∧
    (findCharacterPos c3State (fun q => q) 0 = (fun q => q) ((0 : ℚ), (0 : ℚ)) ∧
     findCharacterPos c3State (fun q => q) (utf32 c3State.m_string).length =
       (fun q => q) (fcpPen c3State testFont (utf32 c3State.m_string).length) ∧
     (∀ i, (utf32 c3State.m_string).length ≤ i →
       findCharacterPos c3State (fun q => q) i =
         findCharacterPos c3State (fun q => q) (utf32 c3State.m_string).length)) :=
  ⟨rfl, claim_C3_amended c3State testFont (fun q => q) rfl⟩

/-- Claim C5, counterexample: `setSizeMax` with a value equal to the
current max-size box still sets the dirty flag (the setter performs no
comparison), so "calling it with a value equal to the current value …
never sets the dirty flag" fails for the max-size setter. -/
theorem claim_C5_counterexample :
    cleanState.m_geometryNeedUpdate = false ∧
    (setSizeMax cleanState cleanState.m_max_size).m_max_size = cleanState.m_max_size ∧
    (setSizeMax cleanState cleanState.m_max_size).m_geometryNeedUpdate = true :=
  ⟨rfl, rfl, rfl⟩

/-- Claim C5 as amended: the setters for string, font, character size,
style, overflow and outline thickness, called with a value equal to the
current one, leave the state unchanged and never set the dirty flag; the
max-size setter, by contrast, stores the value and unconditionally sets
the dirty flag even when the value equals the current one (the rest of
the state unchanged). -/
theorem claim_C5_amended (s : TextState) (f : Font) (hf : s.m_font = some f) :
    setString s s.m_string = s ∧
    setFont s s.m_font = s ∧
    setCharacterSize s s.m_characterSize = s ∧
    setStyle s s.m_style = s ∧
    setOverflow s s.m_overflow = s ∧
    setOutlineThickness s s.m_outlineThickness = s ∧
    setSizeMax s s.m_max_size = { s with m_geometryNeedUpdate := true } := by
  refine ⟨?_, ?_, ?_, ?_, ?_, ?_, rfl⟩
  · simp [setString]
  · unfold setFont
    rw [hf]
    simp [fontPtrEq]
  · simp [setCharacterSize]
  · simp [setStyle]
  · simp [setOverflow]
  · unfold setOutlineThickness
    rw [hf]
    simp

/-- Witness for the amended claim C5 at the concrete clean state. -/
theorem claim_C5_witness :
    cleanState.m_font = some testFont ∧
    (setString cleanState cleanState.m_string = cleanState ∧
     setFont cleanState cleanState.m_font = cleanState ∧
     setCharacterSize cleanState cleanState.m_characterSize = cleanState ∧
     setStyle cleanState cleanState.m_style = cleanState ∧
     setOverflow cleanState cleanState.m_overflow = cleanState ∧
     setOutlineThickness cleanState cleanState.m_outlineThickness = cleanState ∧
     setSizeMax cleanState cleanState.m_max_size =
       { cleanState with m_geometryNeedUpdate := true }) :=
  ⟨rfl, claim_C5_amended cleanState testFont rfl⟩

/-- Claim C6 (a code bug): `setLineSpacingModifier` changes the
line-spacing modifier — which the layout reads through `vspace` — but
never sets the dirty flag, so a clean state stays "clean" while its
geometry is stale, violating the spec's dirty-flag invariant. -/
theorem claim_C6_bug :
    cleanState.m_geometryNeedUpdate = false ∧
    (setLineSpacingModifier cleanState 7).m_geometryNeedUpdate = false ∧
    (setLineSpacingModifier cleanState 7).m_line_spacing ≠ cleanState.m_line_spacing ∧
    vspaceOf (setLineSpacingModifier cleanState 7) testFont ≠ vspaceOf cleanState testFont :=
  ⟨rfl, rfl, by decide, by decide⟩

/-- Claim C7, counterexample: over a bitmap font (`isBmFont`), with the
dirty flag clear and a new colour different from the current outline
colour, `setOutlineColor` is a complete no-op — the stored colour and the
outline vertices keep their old colour — contradicting the claim that the
colour component of every existing vertex is rewritten. -/
theorem claim_C7_counterexample :
    bmState.m_geometryNeedUpdate = false ∧
    redColor ≠ bmState.m_outlineColor ∧
    setOutlineColor bmState redColor = bmState ∧
    bmState.m_outlineVertices = [staleVertex] ∧
    staleVertex.color ≠ redColor := by
  refine ⟨rfl, by decide, ?_, rfl, by decide⟩
  unfold setOutlineColor
  rfl

/-- Claim C7 as amended: when the dirty flag is clear, `setFillColor`
with a new, different colour rewrites exactly the colour component of
every fill vertex (count, positions and texture coordinates unchanged,
flag still clear) — unconditionally, the fill path never consults the
font; `setOutlineColor` does the same for the outline buffer whenever the
font is present and is not a bitmap font; and over a bitmap font
`setOutlineColor` is a complete no-op for every colour: the stored colour
and every outline vertex are left untouched. -/
theorem claim_C7_amended (s : TextState) (hdirty : s.m_geometryNeedUpdate = false) :
    (∀ cF : Color, cF ≠ s.m_fillColor →
      setFillColor s cF = { s with
        m_fillColor := cF
        m_vertices := s.m_vertices.map fun v => { v with color := cF } }) ∧
    (∀ f : Font, s.m_font = some f → f.isBmFont = false →
      ∀ cO : Color, cO ≠ s.m_outlineColor →
        setOutlineColor s cO = { s with
          m_outlineColor := cO
          m_outlineVertices := s.m_outlineVertices.map fun v => { v with color := cO } }) ∧
    (∀ f : Font, s.m_font = some f → f.isBmFont = true →
      ∀ cO : Color, setOutlineColor s cO = s) := by
  refine ⟨?_, ?_, ?_⟩
  · intro cF hcF
    unfold setFillColor
    rw [if_pos hcF]
    simp [hdirty]
  · intro f hf hbm cO hcO
    unfold setOutlineColor
    simp only [hf]
    have hcond : ¬f.isBmFont = true ∧ cO ≠ s.m_outlineColor := ⟨by simp [hbm], hcO⟩
    rw [if_pos hcond]
    simp [hdirty]
  · intro f hf hbm cO
    unfold setOutlineColor
    simp only [hf]
    exact if_neg (fun h => h.1 hbm)

/-- Witness for the amended claim C7, applied both at the concrete
non-dirty state over the outline-capable font and at the non-dirty state
over the bitmap font (where the outline setter is the proven no-op). -/
theorem claim_C7_witness :
    c7State.m_geometryNeedUpdate = false ∧
    bmState.m_geometryNeedUpdate = false ∧
    ((∀ cF : Color, cF ≠ c7State.m_fillColor →
       setFillColor c7State cF = { c7State with
         m_fillColor := cF
         m_vertices := c7State.m_vertices.map fun v => { v with color := cF } }) ∧
     (∀ f : Font, c7State.m_font = some f → f.isBmFont = false →
       ∀ cO : Color, cO ≠ c7State.m_outlineColor →
         setOutlineColor c7State cO = { c7State with
           m_outlineColor := cO
           m_outlineVertices := c7State.m_outlineVertices.map fun v => { v with color := cO } }) ∧
     (∀ f : Font, c7State.m_font = some f → f.isBmFont = true →
       ∀ cO : Color, setOutlineColor c7State cO = c7State)) ∧
    ((∀ cF : Color, cF ≠ bmState.m_fillColor →
       setFillColor bmState cF = { bmState with
         m_fillColor := cF
         m_vertices := bmState.m_vertices.map fun v => { v with color := cF } }) ∧
     (∀ f : Font, bmState.m_font = some f → f.isBmFont = false →
       ∀ cO : Color, cO ≠ bmState.m_outlineColor →
         setOutlineColor bmState cO = { bmState with
           m_outlineColor := cO
           m_outlineVertices := bmState.m_outlineVertices.map fun v => { v with color := cO } }) ∧
     (∀ f : Font, bmState.m_font = some f → f.isBmFont = true →
       ∀ cO : Color, setOutlineColor bmState cO = bmState)) :=
  ⟨rfl, rfl, claim_C7_amended c7State rfl, claim_C7_amended bmState rfl⟩

/-- Claim C9, counterexample: a state whose previous-pass bounds (width
5) are smaller than its max-size box (width 10).  The claim predicts an
available width of 5, but the run uses 10 — `m_bounds` is reset to an
empty rectangle before the available width is computed, so the
clamp-by-previous-bounds never fires — and indeed both characters of
"aa" (total width 4) are emitted with no truncation, where a width of 5
would have truncated. -/
theorem claim_C9_counterexample :
    c9State.m_bounds.width = 5 ∧
    c9State.m_max_size.x = 10 ∧
    specAvailableWidth c9State = 5 ∧
    (layoutRun c9State narrowFont).usedAvailableWidth = 10 ∧
    (layoutRun c9State narrowFont).exit = ExitKind.done ∧
    chrGlyphCount (layoutRun c9State narrowFont).fill = 2 :=
  ⟨rfl, rfl, by decide, by decide, by decide, by decide⟩

/-- Claim C9 as amended: the available width (resp. height) a layout run
uses is the max-size box dimension when positive and unbounded
(`FLT_MAX`) otherwise; the additional clamp against previously computed
bounds is dead, because the bounds were reset to an empty rectangle
before the computation reads them. -/
theorem claim_C9_amended (s : TextState) (f : Font) :
    (layoutRun s f).usedAvailableWidth =
      (if 0 < s.m_max_size.x then s.m_max_size.x else FLT_MAX) ∧
    (layoutRun s f).usedAvailableHeight =
      (if 0 < s.m_max_size.y then s.m_max_size.y else FLT_MAX) := by
  constructor
  · rw [layoutRun_usedW]
    show availCalc s.m_max_size.x 0 = _
    unfold availCalc
    simp
  · rw [layoutRun_usedH]
    unfold availCalc
    simp

/-- Claim C10 (confirmed): `setAlpha` with `recursive = false` and an
alpha equal to the current fill colour's alpha leaves the entire entity
state unchanged — neither colour is modified and no vertex is recoloured,
even when the outline colour's alpha differs. -/
theorem claim_C10 (s : TextState) (alpha : Nat) (h : alpha = s.m_fillColor.a) :
    setAlpha s alpha false = s := by
  simp [setAlpha, h]

/-- Witness for claim C10 at a state whose outline alpha (50) differs
from the fill alpha (200). -/
theorem claim_C10_witness :
    c10State.m_fillColor.a = 200 ∧
    c10State.m_outlineColor.a ≠ 200 ∧
    setAlpha c10State 200 false = c10State :=
  ⟨rfl, by decide, claim_C10 c10State 200 rfl⟩

/-- Claim C1 (confirmed): in single-line (Clamp) mode, when a layout run
with a positive max-size width leaves the character loop through a
truncation branch (exit ≠ done), exactly 3 ellipsis-dot quads are appended
to the fill trace — and to the outline trace when the outline thickness is
non-zero — if and only if, at the truncation point, the pen x plus the
width of three dot advances does not exceed the available width; otherwise
(the hard break) zero ellipsis quads are appended.  The fill vertex buffer
published by `ensureGeometryUpdate` is the vertex realisation of that
trace. -/
theorem claim_C1 (s : TextState) (f : Font)
    (hd : s.m_geometryNeedUpdate = true) (hf : s.m_font = some f)
    (hs : s.m_string.isEmpty = false) (hSL : s.m_overflow = 0)
    (hbox : 0 < s.m_max_size.x)
    (hexit : (layoutRun s f).exit ≠ ExitKind.done) :
    (ellipsisDotCount (layoutRun s f).fill = 3 ↔
      (layoutRun s f).exitPen.x +
        (f.getGlyph 46 s.m_characterSize (styleHas s.m_style styleBold) 0).advance * 3 ≤
        (layoutRun s f).usedAvailableWidth) ∧
    (ellipsisDotCount (layoutRun s f).fill = 0 ↔
      (layoutRun s f).usedAvailableWidth <
        (layoutRun s f).exitPen.x +
          (f.getGlyph 46 s.m_characterSize (styleHas s.m_style styleBold) 0).advance * 3) ∧
    ellipsisDotCount (layoutRun s f).outline =
      (if s.m_outlineThickness ≠ 0 then ellipsisDotCount (layoutRun s f).fill else 0) ∧
    (ensureGeometryUpdate s).m_vertices =
      (layoutRun s f).fill.flatMap (emitVerts s.m_textureSize) := by
  have hSLc : (mkCtx s f).singleLine = true := by
    simp [mkCtx, hSL]
  have hfill0 : ellipsisDotCount (layoutLoop s f).1.fill = 0 := by
    have h := runChars_preserve (mkCtx s f) (fun p => ellipsisDotCount p.fill)
      (fun p c => stepChar_dot_fill (mkCtx s f) p c) (utf32 s.m_string) (startPen s f)
    simpa [layoutLoop, startPen] using h
  have hout0 : ellipsisDotCount (layoutLoop s f).1.outline = 0 := by
    have h := runChars_preserve (mkCtx s f) (fun p => ellipsisDotCount p.outline)
      (fun p c => stepChar_dot_outline (mkCtx s f) p c) (utf32 s.m_string) (startPen s f)
    simpa [layoutLoop, startPen] using h
  rcases hl : layoutLoop s f with ⟨pE, ek⟩
  rw [hl] at hfill0 hout0
  have hfillEq : (layoutRun s f).fill =
      (decorationPhase (mkCtx s f) (ellipsisPhase (mkCtx s f) pE (ek == ExitKind.ell))).fill := by
    rw [layoutRun_fill, hl]
  have houtEq : (layoutRun s f).outline =
      (decorationPhase (mkCtx s f) (ellipsisPhase (mkCtx s f) pE (ek == ExitKind.ell))).outline := by
    rw [layoutRun_outline, hl]
  have hexitEq : (layoutRun s f).exit = ek := by
    rw [layoutRun_exit, hl]
  have hpenEq : (layoutRun s f).exitPen = pE := by
    rw [layoutRun_exitPen, hl]
  cases ek with
  | done => exact absurd hexitEq hexit
  | ell =>
    have hle : pE.x + (mkCtx s f).ellipsisWidth ≤ (mkCtx s f).availableWidth :=
      runChars_exit_ell (mkCtx s f) hSLc (utf32 s.m_string) (startPen s f) pE hl
    have e3 : ellipsisPhase (mkCtx s f) pE (ExitKind.ell == ExitKind.ell) =
        emitDot (mkCtx s f) (emitDot (mkCtx s f) (emitDot (mkCtx s f) pE)) := by
      have hb : (ExitKind.ell == ExitKind.ell) = true := rfl
      rw [hb]
      exact ellipsisPhase_true (mkCtx s f) pE hSLc hle
    have cf : ellipsisDotCount (layoutRun s f).fill = 3 := by
      rw [hfillEq, decorationPhase_dot_fill, e3, emitDot_dot_fill, emitDot_dot_fill,
        emitDot_dot_fill, hfill0]
    have co : ellipsisDotCount (layoutRun s f).outline =
        (if (mkCtx s f).outlineThickness ≠ 0 then 3 else 0) := by
      rw [houtEq, decorationPhase_dot_outline, e3, emitDot_dot_outline, emitDot_dot_outline,
        emitDot_dot_outline, hout0]
      by_cases ht : (mkCtx s f).outlineThickness ≠ 0 <;> simp [ht]
    refine ⟨?_, ?_, ?_, ?_⟩
    · rw [cf, hpenEq]
      exact iff_of_true rfl hle
    · rw [cf, hpenEq]
      exact iff_of_false (by omega) (not_lt.mpr hle)
    · rw [co, cf]
      rfl
    · rw [ensure_run s f hd hf hs]
  | brk =>
    have hgt : (mkCtx s f).availableWidth < pE.x + (mkCtx s f).ellipsisWidth :=
      runChars_exit_brk (mkCtx s f) hSLc (utf32 s.m_string) (startPen s f) pE hl
    have e0 : ellipsisPhase (mkCtx s f) pE (ExitKind.brk == ExitKind.ell) = pE := by
      have hb : (ExitKind.brk == ExitKind.ell) = false := rfl
      rw [hb, ellipsisPhase_false]
    have cf : ellipsisDotCount (layoutRun s f).fill = 0 := by
      rw [hfillEq, decorationPhase_dot_fill, e0, hfill0]
    have co : ellipsisDotCount (layoutRun s f).outline = 0 := by
      rw [houtEq, decorationPhase_dot_outline, e0, hout0]
    refine ⟨?_, ?_, ?_, ?_⟩
    · rw [cf, hpenEq]
      exact iff_of_false (by omega) (not_le.mpr hgt)
    · rw [cf, hpenEq]
      exact iff_of_true rfl hgt
    · rw [co, cf]
      simp
    · rw [ensure_run s f hd hf hs]

/-- Witness for claim C1: "abcd" over the advance-10 font in a 45-wide
single-line box.  The first character fits, the second triggers the
truncation check with room for the ellipsis, so the loop exits through
the `goto` and 3 dot quads are emitted. -/
theorem claim_C1_witness :
    baseState.m_geometryNeedUpdate = true ∧
    baseState.m_font = some testFont ∧
    baseState.m_string.isEmpty = false ∧
    baseState.m_overflow = 0 ∧
    (0 : ℚ) < baseState.m_max_size.x ∧
    (layoutRun baseState testFont).exit ≠ ExitKind.done ∧
    ((ellipsisDotCount (layoutRun baseState testFont).fill = 3 ↔
       (layoutRun baseState testFont).exitPen.x +
         (testFont.getGlyph 46 baseState.m_characterSize
           (styleHas baseState.m_style styleBold) 0).advance * 3 ≤
         (layoutRun baseState testFont).usedAvailableWidth) ∧
     (ellipsisDotCount (layoutRun baseState testFont).fill = 0 ↔
       (layoutRun baseState testFont).usedAvailableWidth <
         (layoutRun baseState testFont).exitPen.x +
           (testFont.getGlyph 46 baseState.m_characterSize
             (styleHas baseState.m_style styleBold) 0).advance * 3) ∧
     ellipsisDotCount (layoutRun baseState testFont).outline =
       (if baseState.m_outlineThickness ≠ 0 then
         ellipsisDotCount (layoutRun baseState testFont).fill else 0) ∧
     (ensureGeometryUpdate baseState).m_vertices =
       (layoutRun baseState testFont).fill.flatMap (emitVerts baseState.m_textureSize)) :=
  ⟨rfl, rfl, by decide, rfl, by decide, by decide,
    claim_C1 baseState testFont rfl rfl (by decide) rfl (by decide) (by decide)⟩

/-- Claim C8 (confirmed): after a layout run, an underline (resp.
strikethrough) bar quad is present in the fill trace — exactly one — if
and only if the Underlined (resp. StrikeThrough) style bit is set and the
final pen x is strictly positive; when present, the underline bar is the
quad spanning `[0, pen x]` (length = final pen x, zero outline inflation)
at the font's underline offset and thickness.  The fill vertex buffer
published by `ensureGeometryUpdate` is the vertex realisation of that
trace. -/
theorem claim_C8 (s : TextState) (f : Font)
    (hd : s.m_geometryNeedUpdate = true) (hf : s.m_font = some f)
    (hs : s.m_string.isEmpty = false) :
    barCount LineSrc.underline (layoutRun s f).fill =
      (if styleHas s.m_style styleUnderlined ∧ 0 < (layoutRun s f).afterEllipsisPen.x
        then 1 else 0) ∧
    barCount LineSrc.strike (layoutRun s f).fill =
      (if styleHas s.m_style styleStrikeThrough ∧ 0 < (layoutRun s f).afterEllipsisPen.x
        then 1 else 0) ∧
    (styleHas s.m_style styleUnderlined ∧ 0 < (layoutRun s f).afterEllipsisPen.x →
      Emit.lineQ LineSrc.underline (layoutRun s f).afterEllipsisPen.x
        (layoutRun s f).afterEllipsisPen.y s.m_fillColor
        (f.getUnderlinePosition s.m_characterSize) (f.getUnderlineThickness s.m_characterSize) 0
        ∈ (layoutRun s f).fill) ∧
    (ensureGeometryUpdate s).m_vertices =
      (layoutRun s f).fill.flatMap (emitVerts s.m_textureSize) := by
  have hu0 : barCount LineSrc.underline (layoutLoop s f).1.fill = 0 := by
    have h := runChars_preserve (mkCtx s f) (fun p => barCount LineSrc.underline p.fill)
      (fun p c => stepChar_bar_fill (mkCtx s f) p c LineSrc.underline)
      (utf32 s.m_string) (startPen s f)
    simpa [layoutLoop, startPen] using h
  have hst0 : barCount LineSrc.strike (layoutLoop s f).1.fill = 0 := by
    have h := runChars_preserve (mkCtx s f) (fun p => barCount LineSrc.strike p.fill)
      (fun p c => stepChar_bar_fill (mkCtx s f) p c LineSrc.strike)
      (utf32 s.m_string) (startPen s f)
    simpa [layoutLoop, startPen] using h
  have hfillEq : (layoutRun s f).fill =
      (decorationPhase (mkCtx s f) ((layoutRun s f).afterEllipsisPen)).fill := by
    rw [layoutRun_fill, layoutRun_afterEllipsisPen]
  have hbu : barCount LineSrc.underline (layoutRun s f).afterEllipsisPen.fill = 0 := by
    rw [layoutRun_afterEllipsisPen, ellipsisPhase_bar_fill]
    exact hu0
  have hbs : barCount LineSrc.strike (layoutRun s f).afterEllipsisPen.fill = 0 := by
    rw [layoutRun_afterEllipsisPen, ellipsisPhase_bar_fill]
    exact hst0
  refine ⟨?_, ?_, ?_, ?_⟩
  · rw [hfillEq, decorationPhase_underline_fill, hbu]
    rw [Nat.zero_add]
    rfl
  · rw [hfillEq, decorationPhase_strike_fill, hbs]
    rw [Nat.zero_add]
    rfl
  · intro h
    rw [hfillEq]
    exact decorationPhase_mem_underline (mkCtx s f) ((layoutRun s f).afterEllipsisPen)
      ⟨h.1, h.2⟩
  · rw [ensure_run s f hd hf hs]

/-- Witness for claim C8: the underlined string "ab" with no size cap —
the run ends with pen x = 20 > 0 and the fill trace holds exactly one
underline bar of length 20 and no strikethrough bar. -/
theorem claim_C8_witness :
    c8State.m_geometryNeedUpdate = true ∧
    c8State.m_font = some testFont ∧
    c8State.m_string.isEmpty = false ∧
    (barCount LineSrc.underline (layoutRun c8State testFont).fill =
      (if styleHas c8State.m_style styleUnderlined ∧
          0 < (layoutRun c8State testFont).afterEllipsisPen.x then 1 else 0) ∧
     barCount LineSrc.strike (layoutRun c8State testFont).fill =
      (if styleHas c8State.m_style styleStrikeThrough ∧
          0 < (layoutRun c8State testFont).afterEllipsisPen.x then 1 else 0) ∧
     (styleHas c8State.m_style styleUnderlined ∧
          0 < (layoutRun c8State testFont).afterEllipsisPen.x →
       Emit.lineQ LineSrc.underline (layoutRun c8State testFont).afterEllipsisPen.x
         (layoutRun c8State testFont).afterEllipsisPen.y c8State.m_fillColor
         (testFont.getUnderlinePosition c8State.m_characterSize)
         (testFont.getUnderlineThickness c8State.m_characterSize) 0
         ∈ (layoutRun c8State testFont).fill) ∧
     (ensureGeometryUpdate c8State).m_vertices =
       (layoutRun c8State testFont).fill.flatMap (emitVerts c8State.m_textureSize)) :=
  ⟨rfl, rfl, by decide, claim_C8 c8State testFont rfl rfl (by decide)⟩

end Cross2dText
